import Mathlib

/-!
A verification development for the version-reconciliation and
release-orchestration engine of TagBot (`tagbot/repo.py`).

The Python class `Repo` is shallowly embedded: each method that a claim
touches becomes a pure Lean function.  External collaborators (the Git
accessor, the GitHub API, the YAML/TOML parsers, `croniter`) are modelled
as explicit environments of functions; observable effects (log calls,
Git/API calls) are returned as explicit traces; Python exceptions become
`Except`/`Option` results.  Python `str` values that flow through the
base64 path are modelled as their UTF-8 byte sequences (`List Nat`).
-/

namespace TagBot

/-- Log severities of `tagbot.debug/info/warn/error`. -/
inductive LogLevel
  | debug
  | info
  | warn
  | error
deriving DecidableEq

/-- One emitted log message. -/
structure LogMsg where
  level : LogLevel
  msg : String
deriving DecidableEq

/-! ## Registry path resolution (`Repo._registry_path`, repo.py 65-76)

`_registry_path` fetches `Registry.toml`, parses it, and looks the
project's uuid up in its `packages` table.  The fetch+parse+lookup is
modelled by `lookupPath` over an environment holding the parsed
`packages` table; `registry_path_once` models one access to the
memoized property: it returns the value, the new cache slot
(`Repo.__registry_path`), and how many registry fetches the access
performed.  Note that the source assigns the cache only when the uuid
is found (lines 73-75); the `None` outcome at line 76 leaves the cache
slot unset. -/

structure RegistryLookupEnv where
  /-- The parsed `packages` table of `Registry.toml`: uuid to path. -/
  packages : List (String × String)
  /-- The project's uuid from `Project.toml`. -/
  uuid : String

/-- Look the uuid up in the registry's package table (repo.py 70-76). -/
def lookupPath (env : RegistryLookupEnv) : Option String :=
  env.packages.lookup env.uuid

/-- One access to the memoized `_registry_path` property:
(result, new cache slot, number of registry fetches performed). -/
def registry_path_once (env : RegistryLookupEnv) (cache : Option String) :
    Option String × Option String × Nat :=
  match cache with
  | some p => (some p, some p, 0)
  | none =>
    match lookupPath env with
    | some p => (some p, some p, 1)
    | none => (none, none, 1)

/-! ## Lookback calculation (`Repo._lookback`, repo.py 78-107)

The property scans the files of `.github/workflows` (directories are
skipped by the source and not modelled).  Per file, the YAML parse and
the nested key accesses can raise; every such exception is swallowed by
the bare `except` at line 105 and the scan moves to the next file.  A
workflow file is modelled after parsing: `jobs = none` stands for a
parse failure or a missing/ill-shaped `jobs` key, `Step.uses = none`
for a step whose `uses` access raises, `Job.steps = none` for a job
whose `steps` access raises, and `cronInterval = none` for a file whose
schedule/cron access or `croniter` evaluation raises.  `cronInterval`
is the number of seconds between consecutive scheduled firings
(`cron.get_next() - cron.get_prev()`, abstracting `croniter`). -/

structure Step where
  uses : Option String

structure Job where
  steps : Option (List Step)

structure Workflow where
  jobs : Option (List Job)
  cronInterval : Option Nat

/-- Substring test, modelling Python's `"TagBot" in step["uses"]`:
`pat` occurs in `s` iff splitting on it yields more than one piece. -/
def strContains (s pat : String) : Bool :=
  (s.splitOn pat).length != 1

/-- Outcome of scanning one workflow file. -/
inductive FileResult
  | foundInterval (i : Nat)
  | noMatch
  | raised
deriving DecidableEq

/-- Scan the steps of one job (repo.py 93-104): the first step whose
`uses` mentions TagBot wins; a missing `uses` or a failing cron access
raises, abandoning the whole file. -/
def scanSteps (cron : Option Nat) : List Step → FileResult
  | [] => .noMatch
  | step :: rest =>
    match step.uses with
    | none => .raised
    | some u =>
      if strContains u "TagBot" then
        match cron with
        | some i => .foundInterval i
        | none => .raised
      else scanSteps cron rest

/-- Scan the jobs of one workflow file (repo.py 92). -/
def scanJobs (cron : Option Nat) : List Job → FileResult
  | [] => .noMatch
  | j :: rest =>
    match j.steps with
    | none => .raised
    | some ss =>
      match scanSteps cron ss with
      | .noMatch => scanJobs cron rest
      | r => r

/-- Scan one workflow file (repo.py 89-106). -/
def scanWorkflow (w : Workflow) : FileResult :=
  match w.jobs with
  | none => .raised
  | some js => scanJobs w.cronInterval js

/-- `timedelta(days=3, hours=1)` in seconds (repo.py 83). -/
def defaultLookback : Nat := 3 * 86400 + 3600

/-- The scan over the listed workflow files (repo.py 85-107): the first
file that yields an interval determines the result
`max(timedelta(seconds=interval * 3, hours=1), default)`; a file whose
scan raises is swallowed and the scan continues; if no file yields an
interval the default is returned. -/
def lookbackSeconds : List Workflow → Nat
  | [] => defaultLookback
  | w :: rest =>
    match scanWorkflow w with
    | .foundInterval i => max (3 * i + 3600) defaultLookback
    | _ => lookbackSeconds rest

/-- The interval of the first workflow file whose scan finds a TagBot
step with a readable cron schedule, if any. -/
def firstFound : List Workflow → Option Nat
  | [] => none
  | w :: rest =>
    match scanWorkflow w with
    | .foundInterval i => some i
    | _ => firstFound rest

/-- `_lookback` including the directory listing (repo.py 84-85):
`os.listdir` is outside the `try`, so an absent workflows directory
(`none`) raises out of the method; a listable directory (`some ws`)
always returns. -/
def lookback_run : Option (List Workflow) → Except Unit Nat
  | none => .error ()
  | some ws => .ok (lookbackSeconds ws)

/-- One access to the memoized `_lookback` property:
(result, new cache slot `Repo.__lookback`, number of scans performed).
The source assigns the cache only on the found branch (lines 101-104);
the fallback `return default` at line 107 leaves the cache slot unset. -/
def lookback_once (ws : List Workflow) (cache : Option Nat) :
    Nat × Option Nat × Nat :=
  match cache with
  | some v => (v, some v, 0)
  | none =>
    match firstFound ws with
    | some i =>
      (max (3 * i + 3600) defaultLookback, some (max (3 * i + 3600) defaultLookback), 1)
    | none => (defaultLookback, none, 1)

/-! ## Base64 handling (`Repo._maybe_b64`, repo.py 109-115)

`_maybe_b64` runs `b64decode(val, validate=True).decode()` and catches
only `binascii.Error` (invalid base64 alphabet or padding), returning
the input unchanged in that case.  Python `str` values are modelled as
their UTF-8 byte sequences (`List Nat`).  The stdlib pieces are
modelled as follows: `b64decode` on a `str` first ASCII-encodes it
(a non-ASCII character raises a plain `ValueError`, which the method
does not catch), then applies the validate regex and the `a2b_base64`
quad/pad rules (`b64decodeBytes`); the trailing `.decode()` validates
the resulting bytes as UTF-8 and raises `UnicodeDecodeError` (also
uncaught) when they are not. -/

/-- Errors of the stdlib calls inside `_maybe_b64`.  `binasciiError` is
the only one the method catches. -/
inductive PyErr
  | binasciiError
  | valueError
  | unicodeDecodeError
deriving DecidableEq

/-- The base64 alphabet: 6-bit value to ASCII code. -/
def encChar (v : Nat) : Nat :=
  if v < 26 then 65 + v
  else if v < 52 then 97 + (v - 26)
  else if v < 62 then 48 + (v - 52)
  else if v = 62 then 43
  else 47

/-- The base64 alphabet, inverted: ASCII code to 6-bit value; `none`
for a code outside the alphabet (`=` included). -/
def decChar (c : Nat) : Option Nat :=
  if 65 ≤ c ∧ c ≤ 90 then some (c - 65)
  else if 97 ≤ c ∧ c ≤ 122 then some (c - 97 + 26)
  else if 48 ≤ c ∧ c ≤ 57 then some (c - 48 + 52)
  else if c = 43 then some 62
  else if c = 47 then some 63
  else none

/-- `base64.b64encode` over bytes: canonical encoding with `=` (61)
padding. -/
def b64encode : List Nat → List Nat
  | [] => []
  | [a] => [encChar (a / 4), encChar (a % 4 * 16), 61, 61]
  | [a, b] => [encChar (a / 4), encChar (a % 4 * 16 + b / 16), encChar (b % 16 * 4), 61]
  | a :: b :: c :: rest =>
    encChar (a / 4) :: encChar (a % 4 * 16 + b / 16) ::
      encChar (b % 16 * 4 + c / 64) :: encChar (c % 64) :: b64encode rest

/-- The alphabet-then-padding shape check of
`base64.b64decode(validate=True)`: the input must match
`[A-Za-z0-9+/]*={0,2}` (alphabet characters followed by at most two
trailing `=` (61)), else `binascii.Error` (Non-base64 digit found).
Returns the alphabet body and the pad count. -/
def b64SplitPads (s : List Nat) : Option (List Nat × Nat) :=
  let w := s.takeWhile fun c => (decChar c).isSome
  let p := s.dropWhile fun c => (decChar c).isSome
  if p.all (· = 61) && p.length ≤ 2 then some (w, p.length) else none

/-- `binascii.a2b_base64` on a regex-validated body: complete quads
decode to three bytes each; a final leftover of two characters decodes
to one byte when both pads are present and of three characters to two
bytes when at least one pad is present (leftover bits ignored, as in
CPython); a leftover of one character, or a leftover with too few
pads, raises `binascii.Error` (Incorrect padding).  Pads after
complete quads are ignored.  The ≤3.10 and ≥3.11 (non-strict) CPython
decoders agree on all inputs that pass the validate regex. -/
def b64DecodeQuads (pads : Nat) : List Nat → Option (List Nat)
  | [] => some []
  | [_] => none
  | [c1, c2] =>
    if pads = 2 then
      match decChar c1, decChar c2 with
      | some v1, some v2 => some [v1 * 4 + v2 / 16]
      | _, _ => none
    else none
  | [c1, c2, c3] =>
    if 1 ≤ pads then
      match decChar c1, decChar c2, decChar c3 with
      | some v1, some v2, some v3 =>
        some [v1 * 4 + v2 / 16, v2 % 16 * 16 + v3 / 4]
      | _, _, _ => none
    else none
  | c1 :: c2 :: c3 :: c4 :: rest =>
    match decChar c1, decChar c2, decChar c3, decChar c4 with
    | some v1, some v2, some v3, some v4 =>
      match b64DecodeQuads pads rest with
      | some bs =>
        some ((v1 * 4 + v2 / 16) :: (v2 % 16 * 16 + v3 / 4) :: (v3 % 4 * 64 + v4) :: bs)
      | none => none
    | _, _, _, _ => none

/-- `base64.b64decode(validate=True)` over ASCII bytes: the validate
regex, then `a2b_base64`.  Both failure modes (`Non-base64 digit
found`, `Incorrect padding`) are `binascii.Error`, the exception
`_maybe_b64` catches, so both map to `none`. -/
def b64decodeBytes (s : List Nat) : Option (List Nat) :=
  match b64SplitPads s with
  | some (w, pads) => b64DecodeQuads pads w
  | none => none

/-- A continuation byte of a UTF-8 sequence. -/
def isCont (b : Nat) : Bool :=
  128 ≤ b && b ≤ 191

/-- One transition of the strict UTF-8 acceptor, as enforced by
`bytes.decode()` (well-formed 1-4 byte sequences; overlong encodings
and surrogate code points rejected).  States: `0` expects a sequence
start; `1`-`3` expect that many plain continuation bytes; `4` (after
`E0`) expects a byte in `[160,191]` then one continuation; `5` (after
`ED`) a byte in `[128,159]` then one continuation; `6` (after `F0`) a
byte in `[144,191]` then two continuations; `7` (after `F4`) a byte in
`[128,143]` then two continuations.  `none` is rejection. -/
def utf8Step (st b : Nat) : Option Nat :=
  if st = 0 then
    if b ≤ 127 then some 0
    else if 194 ≤ b && b ≤ 223 then some 1
    else if b = 224 then some 4
    else if (225 ≤ b && b ≤ 236) || b = 238 || b = 239 then some 2
    else if b = 237 then some 5
    else if b = 240 then some 6
    else if 241 ≤ b && b ≤ 243 then some 3
    else if b = 244 then some 7
    else none
  else if st = 1 then if isCont b then some 0 else none
  else if st = 2 then if isCont b then some 1 else none
  else if st = 3 then if isCont b then some 2 else none
  else if st = 4 then if 160 ≤ b && b ≤ 191 then some 1 else none
  else if st = 5 then if 128 ≤ b && b ≤ 159 then some 1 else none
  else if st = 6 then if 144 ≤ b && b ≤ 191 then some 2 else none
  else if st = 7 then if 128 ≤ b && b ≤ 143 then some 2 else none
  else none

/-- Run the UTF-8 acceptor from a state; accept at the end only in the
start state (no truncated sequence). -/
def utf8Run : Nat → List Nat → Bool
  | st, [] => st == 0
  | st, b :: rest =>
    match utf8Step st b with
    | some st2 => utf8Run st2 rest
    | none => false

/-- Strict UTF-8 validation, as performed by `bytes.decode()`. -/
def validUtf8 (s : List Nat) : Bool :=
  utf8Run 0 s

/-- `Repo._maybe_b64` over a `str` given as UTF-8 bytes (repo.py
109-115).  A non-ASCII input makes `b64decode` raise `ValueError`
(uncaught); invalid base64 raises `binascii.Error`, which is caught,
returning the input unchanged; valid base64 whose decoded bytes are
not valid UTF-8 makes `.decode()` raise `UnicodeDecodeError`
(uncaught). -/
def maybe_b64 (val : List Nat) : Except PyErr (List Nat) :=
  if val.all (· ≤ 127) then
    match b64decodeBytes val with
    | none => .ok val
    | some out => if validUtf8 out then .ok out else .error .unicodeDecodeError
  else .error .valueError

/-! ## Version validation (`Repo._filter_map_versions`, repo.py 134-151)

The Git accessor calls the loop makes are modelled as an environment;
`release_exists` models `Repo._release_exists` (repo.py 117-123), i.e.
whether `get_release(version)` succeeds.  The result is the `valid`
mapping (an association list in iteration order, as a Python dict
preserves insertion order) together with the emitted log messages in
order. -/

structure GitEnv where
  /-- `Git.commit_sha_of_tree`: tree SHA to commit SHA, `none` when no
  commit matches. -/
  commit_sha_of_tree : String → Option String
  /-- `Git.invalid_tag_exists version sha`: a tag named `version`
  exists and points at a commit other than `sha`. -/
  invalid_tag_exists : String → String → Bool

/-- `Repo._filter_map_versions` (repo.py 134-151). -/
def filter_map_versions (git : GitEnv) (release_exists : String → Bool) :
    List (String × String) → List (String × String) × List LogMsg
  | [] => ([], [])
  | (version, tree) :: rest =>
    let v := "v" ++ version
    match git.commit_sha_of_tree tree with
    | none =>
      let (valid, logs) := filter_map_versions git release_exists rest
      (valid,
        ⟨.warn, "No matching commit was found for version " ++ v ++ " (" ++ tree ++ ")"⟩
          :: logs)
    | some sha =>
      if git.invalid_tag_exists v sha then
        let (valid, logs) := filter_map_versions git release_exists rest
        (valid,
          ⟨.error,
            "Existing tag " ++ v ++ " points at the wrong commit (expected " ++ sha ++ ")"⟩
            :: logs)
      else if release_exists v then
        let (valid, logs) := filter_map_versions git release_exists rest
        (valid, ⟨.info, "Release " ++ v ++ " already exists"⟩ :: logs)
      else
        let (valid, logs) := filter_map_versions git release_exists rest
        ((v, sha) :: valid, logs)

/-! ## Registry snapshots (`Repo._versions`, repo.py 153-174)

The registry accessor is abstracted: `get_commits until` returns the
SHAs of the registry commits dated at or before `until`, most recent
first; `contents path ref` returns the version-to-tree-SHA table
parsed from the TOML file at `path` (at ref `ref`, or the live file
when `ref = none`), and `none` when the file is absent
(`UnknownObjectException`).  Timestamps are integers (seconds). -/

structure SnapshotEnv where
  get_commits : Int → List String
  contents : String → Option String → Option (List (String × String))
  /-- `Repo._registry_path`: `none` when the uuid is not registered. -/
  registry_path : Option String
  /-- `datetime.now()`. -/
  now : Int

/-- The path passed to `get_contents` (repo.py 167-169): note that a
`None` registry path is formatted into the string by the f-string. -/
def versionsPath : Option String → String
  | some root => root ++ "/Versions.toml"
  | none => "None" ++ "/Versions.toml"

/-- `Repo._versions` (repo.py 153-174).  `min_age = some 0` falls into
the no-minimum-age branch, as `timedelta(0)` is falsy in
`if min_age:`. -/
def versions (env : SnapshotEnv) (min_age : Option Int) : List (String × String) :=
  match min_age with
  | some age =>
    if age = 0 then
      match env.contents (versionsPath env.registry_path) none with
      | none => []
      | some table => table
    else
      match env.get_commits (env.now - age) with
      | [] => []
      | sha :: _ =>
        match env.contents (versionsPath env.registry_path) (some sha) with
        | none => []
        | some table => table
  | none =>
    match env.contents (versionsPath env.registry_path) none with
    | none => []
    | some table => table

/-! ## Reconciliation (`Repo.new_versions`, repo.py 176-183) -/

/-- The dict comprehension at repo.py 182: the entries of `current`
whose key does not occur in `old`. -/
def reconcile (current old : List (String × String)) : List (String × String) :=
  current.filter fun kv => !(old.any fun kv2 => kv2.1 == kv.1)

structure PipelineEnv where
  snap : SnapshotEnv
  git : GitEnv
  release_exists : String → Bool
  /-- `Repo._lookback`, in seconds. -/
  lookback : Int

/-- `Repo.new_versions` (repo.py 176-183), returning the surviving
versions and every log message emitted along the way. -/
def new_versions (env : PipelineEnv) : List (String × String) × List LogMsg :=
  let current := versions env.snap none
  let dbg1 : LogMsg :=
    ⟨.debug, "There are " ++ toString current.length ++ " total versions"⟩
  let old := versions env.snap (some env.lookback)
  let dbg2 : LogMsg :=
    ⟨.debug, "There are " ++ toString old.length ++ " new versions"⟩
  let (valid, logs) := filter_map_versions env.git env.release_exists (reconcile current old)
  (valid, dbg1 :: dbg2 :: logs)

/-! ## Release branch handling (`Repo.handle_release_branch`, repo.py
258-269, and `Repo._create_release_branch_pr`, repo.py 125-132)

The Git-accessor and API calls are recorded as a trace of actions in
call order, log messages included. -/

structure BranchEnv where
  /-- `Git.fetch_branch`: whether the branch exists upstream. -/
  fetch_branch : String → Bool
  /-- `Git.can_fast_forward`. -/
  can_fast_forward : String → Bool
  /-- `self._repo.default_branch`. -/
  default_branch : String

inductive BranchAction
  | fetch (branch : String)
  | canFF (branch : String)
  | mergeAndDelete (branch : String)
  | createPR (title body head base : String)
  | infoMsg (msg : String)
deriving DecidableEq

/-- `Repo.handle_release_branch` (repo.py 258-269) as the trace of the
calls it performs.  The method returns normally in every case, so the
current release proceeds regardless of the branch outcome. -/
def handle_release_branch (env : BranchEnv) (version : String) : List BranchAction :=
  let branch := "release-" ++ version.drop 1
  if !(env.fetch_branch branch) then
    [.fetch branch, .infoMsg ("Release branch " ++ branch ++ " does not exist")]
  else if env.can_fast_forward branch then
    [.fetch branch, .canFF branch, .infoMsg "Release branch can be fast-forwarded",
      .mergeAndDelete branch]
  else
    [.fetch branch, .canFF branch,
      .infoMsg "Release branch cannot be fast-forwarded, creating pull request",
      .createPR ("Merge release branch for " ++ version) "" branch env.default_branch]

/-- Whether a trace queries fast-forwardability. -/
def hasCanFF (tr : List BranchAction) : Bool :=
  tr.any fun a => match a with | .canFF _ => true | _ => false

/-- Whether a trace merges-and-deletes a branch. -/
def hasMerge (tr : List BranchAction) : Bool :=
  tr.any fun a => match a with | .mergeAndDelete _ => true | _ => false

/-- Whether a trace creates a pull request. -/
def hasPR (tr : List BranchAction) : Bool :=
  tr.any fun a => match a with | .createPR _ _ _ _ => true | _ => false

/-! ## Release creation (`Repo.create_release`, repo.py 271-287) -/

structure ReleaseEnv where
  /-- `Git.commit_sha_of_default()`. -/
  commit_sha_of_default : String
  /-- `self._repo.default_branch`. -/
  default_branch : String
  /-- `self._changelog.get version sha`. -/
  changelog : String → String → String
  /-- `self._ssh`. -/
  ssh : Bool
  /-- `self._gpg`. -/
  gpg : Bool

inductive RelAction
  | debugMsg (msg : String)
  | infoMsg (msg : String)
  | createTag (version sha : String) (annotate : Bool)
  | createRelease (tag name body target : String)
deriving DecidableEq

/-- `Repo.create_release` (repo.py 271-287) as the trace of the calls
it performs. -/
def create_release (env : ReleaseEnv) (version sha : String) : List RelAction :=
  let target := if env.commit_sha_of_default = sha then env.default_branch else sha
  let log := env.changelog version sha
  [RelAction.debugMsg ("Release " ++ version ++ " target: " ++ target)] ++
    (if env.ssh || env.gpg then
      [RelAction.infoMsg ("Manually creating tag " ++ version),
        RelAction.createTag version sha env.gpg]
    else []) ++
    [RelAction.infoMsg ("Creating release " ++ version ++ " at " ++ sha),
      RelAction.createRelease version version log target]

/-- The `target_commitish` of the trace's `createRelease` call, if
any. -/
def releaseTarget (tr : List RelAction) : Option String :=
  tr.findSome? fun a => match a with
    | .createRelease _ _ _ t => some t
    | _ => none

/-- The `annotate` flags of the trace's `createTag` calls, in order. -/
def tagAnnotateFlags (tr : List RelAction) : List Bool :=
  tr.filterMap fun a => match a with
    | .createTag _ _ ann => some ann
    | _ => none

/-! ## Concrete instances used by individual claims -/

/-- A registry whose package table does not contain the project's
uuid, mirroring `test_registry_path`. -/
def registryEnvAbsent : RegistryLookupEnv :=
  ⟨[("abc-def", "B/Bar")], "abc-ddd"⟩

/-- A Git accessor for the validator example of C2: tree `abc` has no
matching commit, any other tree `t` resolves to commit `sha-t`, and a
wrongly-placed tag exists exactly for `v2.3.4`. -/
def gitEnvC2 : GitEnv :=
  ⟨fun tree => if tree == "abc" then none else some ("sha-" ++ tree),
   fun v _sha => v == "v2.3.4"⟩

/-- Release existence for the validator example of C2: only `v3.4.5`
already has a release. -/
def releaseExistsC2 : String → Bool :=
  fun v => v == "v3.4.5"

/-- The candidate set of the validator example of C2. -/
def versionsC2 : List (String × String) :=
  [("1.2.3", "abc"), ("2.3.4", "bcd"), ("3.4.5", "cde"), ("4.5.6", "def")]

/-! ## Supporting lemmas -/

/-- `lookbackSeconds` is determined by the first found interval. -/
theorem lookbackSeconds_eq_firstFound (ws : List Workflow) :
    lookbackSeconds ws =
      match firstFound ws with
      | some i => max (3 * i + 3600) defaultLookback
      | none => defaultLookback := by
  induction ws with
  | nil => rfl
  | cons w rest ih =>
    simp only [lookbackSeconds, firstFound]
    cases scanWorkflow w <;> simp [ih]

/-- The base64 alphabet inverts its encoding on 6-bit values. -/
theorem decChar_encChar : ∀ v < 64, decChar (encChar v) = some v := by decide

/-- The base64 alphabet is ASCII. -/
theorem encChar_le : ∀ v < 64, encChar v ≤ 127 := by decide

/-- The base64 alphabet never emits the padding character. -/
theorem encChar_ne_61 : ∀ v < 64, encChar v ≠ 61 := by decide

/-- Base64-encoded bytes are ASCII. -/
theorem b64encode_ascii : ∀ (s : List Nat), (∀ b ∈ s, b < 256) →
    (b64encode s).all (· ≤ 127) = true
  | [], _ => rfl
  | [a], h => by
    have ha : a < 256 := h a (by simp)
    have h1 : encChar (a / 4) ≤ 127 := encChar_le _ (by omega)
    have h2 : encChar (a % 4 * 16) ≤ 127 := encChar_le _ (by omega)
    simp [b64encode, h1, h2]
  | [a, b], h => by
    have ha : a < 256 := h a (by simp)
    have hb : b < 256 := h b (by simp)
    have h1 : encChar (a / 4) ≤ 127 := encChar_le _ (by omega)
    have h2 : encChar (a % 4 * 16 + b / 16) ≤ 127 := encChar_le _ (by omega)
    have h3 : encChar (b % 16 * 4) ≤ 127 := encChar_le _ (by omega)
    simp [b64encode, h1, h2, h3]
  | a :: b :: c :: rest, h => by
    have ha : a < 256 := h a (by simp)
    have hb : b < 256 := h b (by simp)
    have hc : c < 256 := h c (by simp)
    have ih := b64encode_ascii rest (fun x hx => h x (by simp [hx]))
    have h1 : encChar (a / 4) ≤ 127 := encChar_le _ (by omega)
    have h2 : encChar (a % 4 * 16 + b / 16) ≤ 127 := encChar_le _ (by omega)
    have h3 : encChar (b % 16 * 4 + c / 64) ≤ 127 := encChar_le _ (by omega)
    have h4 : encChar (c % 64) ≤ 127 := encChar_le _ (by omega)
    simp [b64encode, h1, h2, h3, h4, ih]

/-- The alphabet inverse is defined on everything the encoding
emits. -/
theorem decChar_encChar_isSome (v : Nat) (h : v < 64) :
    (decChar (encChar v)).isSome = true := by
  rw [decChar_encChar v h]; rfl

/-- The padding character is not in the alphabet. -/
theorem decChar_61 : decChar 61 = none := rfl

/-- Splitting a quad of alphabet characters off the front commutes
with the pad split. -/
theorem b64SplitPads_quad (c1 c2 c3 c4 : Nat) (s : List Nat)
    (h1 : (decChar c1).isSome = true) (h2 : (decChar c2).isSome = true)
    (h3 : (decChar c3).isSome = true) (h4 : (decChar c4).isSome = true) :
    b64SplitPads (c1 :: c2 :: c3 :: c4 :: s) =
      (b64SplitPads s).map fun wp => (c1 :: c2 :: c3 :: c4 :: wp.1, wp.2) := by
  simp only [b64SplitPads, List.takeWhile_cons, List.dropWhile_cons, h1, h2, h3, h4,
    if_true]
  split <;> simp

/-- Decoding inverts encoding on byte lists (the round trip through
the canonical base64 representation). -/
theorem b64decodeBytes_b64encode : ∀ (s : List Nat), (∀ b ∈ s, b < 256) →
    b64decodeBytes (b64encode s) = some s
  | [], _ => rfl
  | [a], h => by
    have ha : a < 256 := h a (by simp)
    have e1 := decChar_encChar (a / 4) (by omega)
    have e2 := decChar_encChar (a % 4 * 16) (by omega)
    have s1 := decChar_encChar_isSome (a / 4) (by omega)
    have s2 := decChar_encChar_isSome (a % 4 * 16) (by omega)
    simp [b64encode, b64decodeBytes, b64SplitPads, b64DecodeQuads,
      List.takeWhile_cons, List.dropWhile_cons, s1, s2, decChar_61, e1, e2]
    omega
  | [a, b], h => by
    have ha : a < 256 := h a (by simp)
    have hb : b < 256 := h b (by simp)
    have e1 := decChar_encChar (a / 4) (by omega)
    have e2 := decChar_encChar (a % 4 * 16 + b / 16) (by omega)
    have e3 := decChar_encChar (b % 16 * 4) (by omega)
    have s1 := decChar_encChar_isSome (a / 4) (by omega)
    have s2 := decChar_encChar_isSome (a % 4 * 16 + b / 16) (by omega)
    have s3 := decChar_encChar_isSome (b % 16 * 4) (by omega)
    simp [b64encode, b64decodeBytes, b64SplitPads, b64DecodeQuads,
      List.takeWhile_cons, List.dropWhile_cons, s1, s2, s3, decChar_61, e1, e2, e3]
    omega
  | a :: b :: c :: rest, h => by
    have ha : a < 256 := h a (by simp)
    have hb : b < 256 := h b (by simp)
    have hc : c < 256 := h c (by simp)
    have ih := b64decodeBytes_b64encode rest (fun x hx => h x (by simp [hx]))
    have e1 := decChar_encChar (a / 4) (by omega)
    have e2 := decChar_encChar (a % 4 * 16 + b / 16) (by omega)
    have e3 := decChar_encChar (b % 16 * 4 + c / 64) (by omega)
    have e4 := decChar_encChar (c % 64) (by omega)
    have s1 := decChar_encChar_isSome (a / 4) (by omega)
    have s2 := decChar_encChar_isSome (a % 4 * 16 + b / 16) (by omega)
    have s3 := decChar_encChar_isSome (b % 16 * 4 + c / 64) (by omega)
    have s4 := decChar_encChar_isSome (c % 64) (by omega)
    rcases hsp : b64SplitPads (b64encode rest) with _ | ⟨w, k⟩
    · simp only [b64decodeBytes, hsp] at ih
      exact absurd ih (by simp)
    · simp only [b64decodeBytes, hsp] at ih
      simp only [b64encode, b64decodeBytes,
        b64SplitPads_quad _ _ _ _ _ s1 s2 s3 s4, hsp, Option.map_some']
      simp only [b64DecodeQuads, e1, e2, e3, e4, ih]
      simp
      omega

set_option maxHeartbeats 1000000 in
/-- A byte the UTF-8 acceptor steps over is a byte. -/
theorem utf8Step_lt_256 (st b st2 : Nat) (h : utf8Step st b = some st2) : b < 256 := by
  unfold utf8Step at h
  split_ifs at h
  all_goals try omega
  all_goals simp_all only [Bool.and_eq_true, Bool.or_eq_true, decide_eq_true_eq, isCont]
  all_goals omega

/-- Every element of a UTF-8-accepted list is a byte. -/
theorem utf8Run_lt_256 : ∀ (st : Nat) (s : List Nat), utf8Run st s = true → ∀ x ∈ s, x < 256
  | _, [], _, x, hx => by simp at hx
  | st, b :: rest, h, x, hx => by
    rw [utf8Run] at h
    rcases hst : utf8Step st b with _ | st2
    · rw [hst] at h; simp at h
    · rw [hst] at h
      rcases List.mem_cons.mp hx with rfl | hx
      · exact utf8Step_lt_256 st x st2 hst
      · exact utf8Run_lt_256 st2 rest h x hx

/-- Every element of a valid UTF-8 byte sequence is a byte. -/
theorem validUtf8_lt_256 (s : List Nat) (h : validUtf8 s = true) : ∀ x ∈ s, x < 256 :=
  utf8Run_lt_256 0 s h

/-- The surviving entries of one `_filter_map_versions` step: the
no-matching-commit case. -/
theorem filter_map_versions_fst_cons_none (git : GitEnv) (rel : String → Bool)
    (key tree : String) (rest : List (String × String))
    (hc : git.commit_sha_of_tree tree = none) :
    (filter_map_versions git rel ((key, tree) :: rest)).1 =
      (filter_map_versions git rel rest).1 := by
  simp [filter_map_versions, hc]

/-- The surviving entries of one `_filter_map_versions` step: the
resolved-commit case. -/
theorem filter_map_versions_fst_cons_some (git : GitEnv) (rel : String → Bool)
    (key tree sha : String) (rest : List (String × String))
    (hc : git.commit_sha_of_tree tree = some sha) :
    (filter_map_versions git rel ((key, tree) :: rest)).1 =
      if git.invalid_tag_exists ("v" ++ key) sha then
        (filter_map_versions git rel rest).1
      else if rel ("v" ++ key) then
        (filter_map_versions git rel rest).1
      else ("v" ++ key, sha) :: (filter_map_versions git rel rest).1 := by
  simp only [filter_map_versions, hc]
  split_ifs <;> rfl

/-- Every survivor of `_filter_map_versions` comes from a candidate
whose tree resolves to its commit, with no wrongly-placed tag and no
existing release of its name. -/
theorem mem_filter_map_versions (git : GitEnv) (rel : String → Bool)
    (vs : List (String × String)) :
    ∀ v sha, (v, sha) ∈ (filter_map_versions git rel vs).1 →
      ∃ key tree, (key, tree) ∈ vs ∧ v = "v" ++ key ∧
        git.commit_sha_of_tree tree = some sha ∧
        git.invalid_tag_exists v sha = false ∧ rel v = false := by
  induction vs with
  | nil => intro v sha h; simp [filter_map_versions] at h
  | cons kv rest ih =>
    obtain ⟨key, tree⟩ := kv
    intro v sha h
    cases hc : git.commit_sha_of_tree tree with
    | none =>
      rw [filter_map_versions_fst_cons_none git rel key tree rest hc] at h
      obtain ⟨k2, t2, hmem, hv, hcs, hit, hr⟩ := ih v sha h
      exact ⟨k2, t2, List.mem_cons_of_mem _ hmem, hv, hcs, hit, hr⟩
    | some s =>
      rw [filter_map_versions_fst_cons_some git rel key tree s rest hc] at h
      by_cases hi : git.invalid_tag_exists ("v" ++ key) s = true
      · rw [if_pos hi] at h
        obtain ⟨k2, t2, hmem, hv, hcs, hit, hr⟩ := ih v sha h
        exact ⟨k2, t2, List.mem_cons_of_mem _ hmem, hv, hcs, hit, hr⟩
      · rw [if_neg hi] at h
        by_cases hr : rel ("v" ++ key) = true
        · rw [if_pos hr] at h
          obtain ⟨k2, t2, hmem, hv, hcs, hit, hr2⟩ := ih v sha h
          exact ⟨k2, t2, List.mem_cons_of_mem _ hmem, hv, hcs, hit, hr2⟩
        · rw [if_neg hr] at h
          rcases List.mem_cons.mp h with heq | hmem
          · obtain ⟨hv, hs⟩ := Prod.mk.injEq .. ▸ heq
            subst hv; subst hs
            exact ⟨key, tree, List.mem_cons_self _ _, rfl, hc,
              Bool.eq_false_iff.mpr hi, Bool.eq_false_iff.mpr hr⟩
          · obtain ⟨k2, t2, hmem2, hv, hcs, hit, hr2⟩ := ih v sha hmem
            exact ⟨k2, t2, List.mem_cons_of_mem _ hmem2, hv, hcs, hit, hr2⟩

/-! ## The claims -/

/-- C1: for snapshots `current` (now) and `old` (as of the lookback),
the reconciliation step of `new_versions` keeps exactly the
(key, tree-SHA) pairs whose key is present in `current` and absent in
`old`; and `new_versions` applies validation filtering to exactly that
difference. -/
theorem claim_C1_reconcile_diff :
    (∀ (current old : List (String × String)) (k v : String),
      ((k, v) ∈ reconcile current old ↔
        (k, v) ∈ current ∧ ∀ w, (k, w) ∉ old)) ∧
    ∀ env : PipelineEnv,
      (new_versions env).1 =
        (filter_map_versions env.git env.release_exists
          (reconcile (versions env.snap none)
            (versions env.snap (some env.lookback)))).1 := by
  constructor
  · intro current old k v
    simp only [reconcile, List.mem_filter, Bool.not_eq_true', List.any_eq_false,
      beq_iff_eq]
    constructor
    · rintro ⟨hc, hall⟩
      exact ⟨hc, fun w hw => hall (k, w) hw rfl⟩
    · rintro ⟨hc, hnone⟩
      refine ⟨hc, ?_⟩
      rintro ⟨k2, w2⟩ h2 rfl
      exact hnone w2 h2
  · intro env
    rfl

/-- C2: on the candidate set where `1.2.3`'s tree has no matching
commit, a tag `v2.3.4` exists at the wrong commit, a release `v3.4.5`
already exists and `4.5.6` is clean, the validator returns exactly
`v4.5.6` mapped to the commit of its tree and emits exactly one
warning, one error and one informational message, each naming the
offending version; and in general no version survives to release
creation unless its tree SHA resolves to a commit, any existing
same-named tag points at that commit, and no same-named release
exists. -/
theorem claim_C2_validator :
    filter_map_versions gitEnvC2 releaseExistsC2 versionsC2 =
      ([("v4.5.6", "sha-def")],
        [⟨.warn, "No matching commit was found for version v1.2.3 (abc)"⟩,
         ⟨.error, "Existing tag v2.3.4 points at the wrong commit (expected sha-bcd)"⟩,
         ⟨.info, "Release v3.4.5 already exists"⟩]) ∧
    ∀ (git : GitEnv) (rel : String → Bool) (vs : List (String × String)) (v sha : String),
      (v, sha) ∈ (filter_map_versions git rel vs).1 →
      ∃ key tree, (key, tree) ∈ vs ∧ v = "v" ++ key ∧
        git.commit_sha_of_tree tree = some sha ∧
        git.invalid_tag_exists v sha = false ∧ rel v = false := by
  exact ⟨rfl, fun git rel vs v sha h => mem_filter_map_versions git rel vs v sha h⟩

/-- C3: for every schedule input, including malformed or missing
schedule configuration, the lookback scan returns at least
3 days 1 hour (262800 seconds); when a matching schedule with cron
interval `i` is found, the result is
`max (3 * i + 1 hour) (3 days 1 hour)`. -/
theorem claim_C3_lookback_floor (ws : List Workflow) :
    262800 ≤ lookbackSeconds ws ∧
      ∀ i, firstFound ws = some i →
        lookbackSeconds ws = max (3 * i + 3600) 262800 := by
  have hd : defaultLookback = 262800 := rfl
  rw [lookbackSeconds_eq_firstFound ws]
  constructor
  · cases h : firstFound ws <;> simp [hd, le_max_right]
  · intro i hi
    simp [hi, hd]

/-- C4 counterexample: with the workflows directory absent
(`os.listdir` raises, repo.py 85, outside the `try` of lines 89-106),
`_lookback` raises instead of returning the default of 3 days 1 hour
(262800 seconds). -/
theorem claim_C4_cex :
    lookback_run none ≠ Except.ok 262800 := by
  simp [lookback_run]

/-- C4 (amended): when the workflows directory is listable, `_lookback`
never raises — unreadable files, malformed YAML and absent schedules
are swallowed per file — and every outcome without a matching schedule
falls back to the default of 3 days 1 hour; an absent workflows
directory, however, raises out of the method. -/
theorem claim_C4_fallback (ws : List Workflow) :
    lookback_run (some ws) = Except.ok (lookbackSeconds ws) ∧
      (firstFound ws = none → lookback_run (some ws) = Except.ok 262800) := by
  refine ⟨rfl, fun h => ?_⟩
  simp [lookback_run, lookbackSeconds_eq_firstFound ws, h, defaultLookback]

/-- C9 counterexample: with the identifier absent, the first
evaluation of `_registry_path` leaves the cache slot unset (repo.py
76), so a second access performs a registry fetch again instead of
returning a cached value without recomputation. -/
theorem claim_C9_cex :
    (registry_path_once registryEnvAbsent
      (registry_path_once registryEnvAbsent none).2.1).2.2 ≠ 0 := by
  decide

/-- C9 (amended): `_lookback` and `_registry_path` are memoized on
their success outcomes only: a cached access returns the cached value
with no recomputation, and a successful first computation fills the
cache; the fallback-to-default and identifier-absent outcomes leave
the cache unset, so every later access recomputes (returning an equal
value).  The identifier-absent outcome is still `none`, distinct from
an empty snapshot. -/
theorem claim_C9_memoization :
    (∀ (env : RegistryLookupEnv) (p : String),
      registry_path_once env (some p) = (some p, some p, 0)) ∧
    (∀ (ws : List Workflow) (v : Nat),
      lookback_once ws (some v) = (v, some v, 0)) ∧
    (∀ (env : RegistryLookupEnv) (p : String), lookupPath env = some p →
      registry_path_once env none = (some p, some p, 1) ∧
      registry_path_once env (registry_path_once env none).2.1 = (some p, some p, 0)) ∧
    (∀ env : RegistryLookupEnv, lookupPath env = none →
      registry_path_once env none = (none, none, 1) ∧
      (registry_path_once env (registry_path_once env none).2.1).2.2 = 1) ∧
    (∀ (ws : List Workflow) (i : Nat), firstFound ws = some i →
      lookback_once ws none =
        (max (3 * i + 3600) defaultLookback, some (max (3 * i + 3600) defaultLookback), 1) ∧
      lookback_once ws (lookback_once ws none).2.1 =
        (max (3 * i + 3600) defaultLookback, some (max (3 * i + 3600) defaultLookback), 0)) ∧
    (∀ ws : List Workflow, firstFound ws = none →
      lookback_once ws none = (defaultLookback, none, 1) ∧
      (lookback_once ws (lookback_once ws none).2.1).2.2 = 1) := by
  refine ⟨fun env p => rfl, fun ws v => rfl, ?_, ?_, ?_, ?_⟩
  · intro env p h
    simp [registry_path_once, h]
  · intro env h
    simp [registry_path_once, h]
  · intro ws i h
    simp [lookback_once, h]
  · intro ws h
    simp [lookback_once, h]

/-- C5: `handle_release_branch` with the branch absent performs no
further branch operation; with the branch present and
fast-forwardable it merges-and-deletes and creates no pull request;
with the branch present but diverged it creates a pull request and
attempts no merge.  Being a total function into a trace, it returns in
every case, so the current release proceeds regardless. -/
theorem claim_C5_branch_cases (env : BranchEnv) (version : String) :
    (env.fetch_branch ("release-" ++ version.drop 1) = false →
      hasCanFF (handle_release_branch env version) = false ∧
      hasMerge (handle_release_branch env version) = false ∧
      hasPR (handle_release_branch env version) = false) ∧
    (env.fetch_branch ("release-" ++ version.drop 1) = true →
      env.can_fast_forward ("release-" ++ version.drop 1) = true →
      hasMerge (handle_release_branch env version) = true ∧
      hasPR (handle_release_branch env version) = false) ∧
    (env.fetch_branch ("release-" ++ version.drop 1) = true →
      env.can_fast_forward ("release-" ++ version.drop 1) = false →
      hasPR (handle_release_branch env version) = true ∧
      hasMerge (handle_release_branch env version) = false) := by
  refine ⟨fun h1 => ?_, fun h1 h2 => ?_, fun h1 h2 => ?_⟩
  · simp [handle_release_branch, h1, hasCanFF, hasMerge, hasPR]
  · simp [handle_release_branch, h1, h2, hasCanFF, hasMerge, hasPR]
  · simp [handle_release_branch, h1, h2, hasCanFF, hasMerge, hasPR]

/-- C6: `create_release` targets the default branch name exactly when
the commit equals the default-branch head and the raw commit
otherwise; a tag is explicitly created via the Git accessor if and
only if SSH or GPG signing is configured (the list of created tags'
annotate flags is then `[gpg]`, else `[]`), and that tag is annotated
if and only if GPG signing is configured. -/
theorem claim_C6_release_target_and_tag (env : ReleaseEnv) (version sha : String) :
    releaseTarget (create_release env version sha) =
      some (if env.commit_sha_of_default = sha then env.default_branch else sha) ∧
    tagAnnotateFlags (create_release env version sha) =
      (if env.ssh || env.gpg then [env.gpg] else []) := by
  cases h : env.ssh || env.gpg <;>
    simp [create_release, releaseTarget, tagAnnotateFlags, h]

/-- C10: `handle_release_branch` derives the release branch name as
`release-` followed by the version minus its first character; the
first character is dropped unconditionally, whatever it is, as the
first fetched branch shows on `v1.2.3` and on `x1.2.3` alike. -/
theorem claim_C10_branch_name :
    (∀ (env : BranchEnv) (version : String),
      (handle_release_branch env version).head? =
        some (.fetch ("release-" ++ version.drop 1))) ∧
    (∀ env : BranchEnv,
      (handle_release_branch env "v1.2.3").head? = some (.fetch "release-1.2.3") ∧
      (handle_release_branch env "x1.2.3").head? = some (.fetch "release-1.2.3")) := by
  have h : ∀ (env : BranchEnv) (version : String),
      (handle_release_branch env version).head? =
        some (.fetch ("release-" ++ version.drop 1)) := by
    intro env version
    by_cases h1 : env.fetch_branch ("release-" ++ version.drop 1)
    · by_cases h2 : env.can_fast_forward ("release-" ++ version.drop 1) <;>
        simp [handle_release_branch, h1, h2]
    · simp [handle_release_branch, h1]
  refine ⟨h, fun env => ⟨?_, ?_⟩⟩ <;> rw [h] <;> rfl

/-- C8: `_versions` without a minimum age turns an absent versions
file into an empty snapshot rather than an error; with a (positive)
minimum age it returns an empty snapshot when no registry commit
exists at or before now minus the age, and otherwise reads the
versions file as of the most recent such commit, an absent file again
yielding an empty snapshot. -/
theorem claim_C8_snapshot_reading (env : SnapshotEnv) (age : Int) :
    (env.contents (versionsPath env.registry_path) none = none →
      versions env none = []) ∧
    (0 < age → env.get_commits (env.now - age) = [] →
      versions env (some age) = []) ∧
    (∀ sha rest table, 0 < age →
      env.get_commits (env.now - age) = sha :: rest →
      env.contents (versionsPath env.registry_path) (some sha) = some table →
      versions env (some age) = table) ∧
    (∀ sha rest, 0 < age →
      env.get_commits (env.now - age) = sha :: rest →
      env.contents (versionsPath env.registry_path) (some sha) = none →
      versions env (some age) = []) := by
  refine ⟨fun h => ?_, fun ha h => ?_, fun sha rest table ha h hc => ?_,
    fun sha rest ha h hc => ?_⟩
  · simp [versions, h]
  · simp [versions, h, ha.ne']
  · simp [versions, h, ha.ne', hc]
  · simp [versions, h, ha.ne', hc]

/-- C7 counterexample: the input `é` (UTF-8 bytes `[195, 169]`) is not
valid base64, yet `_maybe_b64` raises an uncaught `ValueError` (from
`b64decode`'s internal ASCII encoding of the `str`, which is not a
`binascii.Error`) instead of returning the input unchanged. -/
theorem claim_C7_cex :
    maybe_b64 [195, 169] = Except.error PyErr.valueError ∧
      maybe_b64 [195, 169] ≠ Except.ok [195, 169] := by
  refine ⟨rfl, fun hc => ?_⟩
  rw [show maybe_b64 [195, 169] = Except.error PyErr.valueError from rfl] at hc
  exact Except.noConfusion hc

/-- C7 (amended): if `x` was produced by base64-encoding a string `s`
(given as its UTF-8 bytes), `_maybe_b64 x` returns `s`; and if `x` is
ASCII but not valid base64 — rejected by `b64decode(validate=True)` —
`_maybe_b64 x` returns `x` unchanged without raising (the
`binascii.Error` is caught).  A non-ASCII input, or valid base64 whose
decoded bytes are not valid UTF-8, instead raises an uncaught
`ValueError`.  The last conjunct pins the acceptance set down at a
non-canonical point: a trailing pad after complete quads is accepted,
so `Zm9v=` (bytes `[90, 109, 57, 118, 61]`) decodes to `foo`, not
passed through. -/
theorem claim_C7_maybe_b64 (s x : List Nat) :
    (validUtf8 s = true → maybe_b64 (b64encode s) = Except.ok s) ∧
      (x.all (· ≤ 127) = true → b64decodeBytes x = none →
        maybe_b64 x = Except.ok x) ∧
      maybe_b64 [90, 109, 57, 118, 61] = Except.ok [102, 111, 111] := by
  refine ⟨?_, ?_, rfl⟩
  · intro hv
    have hlt : ∀ b ∈ s, b < 256 := validUtf8_lt_256 s hv
    unfold maybe_b64
    rw [if_pos (b64encode_ascii s hlt), b64decodeBytes_b64encode s hlt]
    simp [hv]
  · intro hall hnone
    unfold maybe_b64
    rw [if_pos hall, hnone]

end TagBot
